import Mathlib

/-!
Shallow embedding of the flare-p-chain-indexer mirroring cronjob and the
X-chain input-resolution pipeline, with theorems settling the frozen claims.

Conventions of the embedding:
* Go `int64` / `int` values are modelled as unbounded `Int` (no claim here
  exercises overflow); Go integer division truncates toward zero, which is
  `Int.tdiv`; a Go division by zero panics, modelled as `Option.none`.
* Fallible Go functions returning `error` are modelled with `Except String`.
* External collaborators (avalanchego id parsing, the Merkle proof lookup,
  the on-chain contract call, hex-address conversion) are oracles collected
  in `MirrorEnv`; the cronjob code under verification is deterministic in
  these oracles.
* 32-byte hashes and node ids are abstracted as `Nat` tokens: the code never
  inspects their bytes, it only passes them along.
-/

deriving instance DecidableEq for Except

/-- Epoch computation of `mirrorCronJob.getPreviousEpoch`:
`(now - epochTimeSeconds) / epochPeriodSeconds - 1` with Go (truncated)
integer division. -/
def getPreviousEpoch (epochTimeSeconds epochPeriodSeconds now : Int) : Int :=
  Int.tdiv (now - epochTimeSeconds) epochPeriodSeconds - 1

/-- Epoch computation including Go runtime behaviour: Go panics on integer
division by zero, modelled as `none`. -/
def getPreviousEpochChecked (epochTimeSeconds epochPeriodSeconds now : Int) :
    Option Int :=
  if epochPeriodSeconds = 0 then none
  else some (getPreviousEpoch epochTimeSeconds epochPeriodSeconds now)

/-- Window computed inside `mirrorCronJob.getUnmirroredTxs`:
start = epochTime + epoch * period, end = start + period (seconds). -/
def epochWindow (epochTimeSeconds epochPeriodSeconds epoch : Int) : Int × Int :=
  (epochTimeSeconds + epoch * epochPeriodSeconds,
   epochTimeSeconds + epoch * epochPeriodSeconds + epochPeriodSeconds)

/-- Transaction-type tag of a staking transaction (`database.PChainTxType`):
the two recognised constants plus an open catch-all for every other tag. -/
inductive PChainTxType where
  | pChainAddValidatorTx : PChainTxType
  | pChainAddDelegatorTx : PChainTxType
  | otherTx : String → PChainTxType
deriving DecidableEq

/-- Staking-transaction record (`database.PChainVotingData`), restricted to
the fields the cronjob reads.  `timestamp` and `mirrored` are the columns the
unmirrored-transaction selection filters on (the database package is not part
of the sources; those two fields follow the spec's data model). -/
structure PChainVotingData where
  txID : Option String
  txType : PChainTxType
  nodeID : String
  startTime : Option Int
  endTime : Option Int
  weight : Nat
  blockHeight : Nat
  address : String
  feePercentage : Nat
  timestamp : Int
  mirrored : Bool
deriving DecidableEq

/-- Stake claim submitted on-chain
(`mirroring.IIPChainStakeMirrorVerifierPChainStake`). -/
structure StakeData where
  epochId : Int
  blockNumber : Nat
  transactionHash : Nat
  transactionType : Nat
  nodeId : Nat
  startTime : Int
  endTime : Int
  weight : Nat
  sourceAddress : Nat
  feePercentage : Nat
deriving DecidableEq

/-- Oracles for the external collaborators used by the mirroring cronjob. -/
structure MirrorEnv where
  parseTxID : String → Except String Nat
  parseNodeID : String → Except String Nat
  hexToAddress : String → Nat
  getProof : List Nat → Nat → Except String (List Nat)
  verifyStake : StakeData → List Nat → Except String Unit

/-- Configuration state carried by a `mirrorCronJob` value. -/
structure MirrorJobCfg where
  epochTimeSeconds : Int
  epochPeriodSeconds : Int
deriving DecidableEq

/-- Construction performed by `NewMirrorCronjob`:
`epochPeriodSeconds = int(cfg.Mirror.EpochPeriod / time.Second)`, a truncated
division of the configured nanosecond duration by 10^9. -/
def newMirrorCronjob (epochPeriodNanos epochTimeUnix : Int) : MirrorJobCfg :=
  { epochTimeSeconds := epochTimeUnix
    epochPeriodSeconds := Int.tdiv epochPeriodNanos 1000000000 }

/-- Embedding of `mirrorCronJob.Enabled`, which returns `false`. -/
def Enabled (_c : MirrorJobCfg) : Bool :=
  false

/-- Embedding of `getTxType`: validator-add maps to tag 0, delegator-add to
tag 1, anything else is an error. -/
def getTxType : PChainTxType → Except String Nat
  | PChainTxType.pChainAddValidatorTx => Except.ok 0
  | PChainTxType.pChainAddDelegatorTx => Except.ok 1
  | PChainTxType.otherTx _ => Except.error ("invalid tx type")

/-- Embedding of `toStakeData`: builds the on-chain stake claim, failing on an
unknown transaction type, an unparseable node id, or a nil start/end time. -/
def toStakeData (env : MirrorEnv) (tx : PChainVotingData) (epochId : Int)
    (txHash : Nat) : Except String StakeData :=
  match getTxType tx.txType with
  | Except.error e => Except.error e
  | Except.ok ty =>
    match env.parseNodeID tx.nodeID with
    | Except.error e => Except.error ("ids.NodeIDFromString: " ++ e)
    | Except.ok nid =>
      match tx.startTime with
      | none => Except.error ("tx.StartTime is nil")
      | some st =>
        match tx.endTime with
        | none => Except.error ("tx.EndTime is nil")
        | some et =>
          Except.ok
            { epochId := epochId
              blockNumber := tx.blockHeight
              transactionHash := txHash
              transactionType := ty
              nodeId := nid
              startTime := st
              endTime := et
              weight := tx.weight
              sourceAddress := env.hexToAddress tx.address
              feePercentage := tx.feePercentage }

/-- Embedding of `buildTree`: hashes every transaction id in order, failing on
a nil or unparseable id.  `merkle.Build(hashes, false)` (utils/merkle is not
part of the sources) is modelled from the spec: the tree is determined by its
ordered leaf sequence, with no sorting or deduplication, so the tree is
represented by that sequence. -/
def buildTree (parseTxID : String → Except String Nat) :
    List PChainVotingData → Except String (List Nat)
  | [] => Except.ok []
  | tx :: rest =>
    match tx.txID with
    | none => Except.error ("tx.TxID is nil")
    | some s =>
      match parseTxID s with
      | Except.error e => Except.error ("ids.FromString: " ++ e)
      | Except.ok h => (buildTree parseTxID rest).map (fun hs => h :: hs)

/-- Embedding of `mirrorCronJob.mirrorTx` for one transaction: returns the
result together with the trace of proof requests and submission calls issued.
A nil `TxID` at this point would be a Go nil-pointer dereference (panic),
modelled as an aborting error; the cronjob only reaches `mirrorTx` after
`buildTree` has already rejected nil ids. -/
def mirrorTx (env : MirrorEnv) (epochId : Int) (tree : List Nat)
    (tx : PChainVotingData) : Except String Unit × List Nat × List StakeData :=
  match tx.txID with
  | none => (Except.error ("nil pointer dereference"), [], [])
  | some s =>
    match env.parseTxID s with
    | Except.error e => (Except.error ("ids.FromString: " ++ e), [], [])
    | Except.ok txHash =>
      match toStakeData env tx epochId txHash with
      | Except.error e => (Except.error e, [], [])
      | Except.ok sd =>
        match env.getProof tree txHash with
        | Except.error e =>
          (Except.error ("merkleTree.GetProof: " ++ e), [txHash], [])
        | Except.ok proof =>
          match env.verifyStake sd proof with
          | Except.error e =>
            (Except.error ("mirroringContract.VerifyStake: " ++ e),
             [txHash], [sd])
          | Except.ok _ => (Except.ok (), [txHash], [sd])

/-- Sequential per-transaction loop of `mirrorCronJob.mirrorTxs`: submissions
happen strictly in order and the first error aborts the rest. -/
def mirrorLoop (env : MirrorEnv) (epochId : Int) (tree : List Nat) :
    List PChainVotingData → Except String Unit × List Nat × List StakeData
  | [] => (Except.ok (), [], [])
  | tx :: rest =>
    match mirrorTx env epochId tree tx with
    | (Except.error e, ps, ss) => (Except.error e, ps, ss)
    | (Except.ok _, ps, ss) =>
      match mirrorLoop env epochId tree rest with
      | (r, ps2, ss2) => (r, ps ++ ps2, ss ++ ss2)

/-- Outcome of a `mirrorTxs` stage: the result, the trace of proof requests
and submissions, and whether the Merkle tree was built. -/
structure MirrorTxsOut where
  result : Except String Unit
  proofReqs : List Nat
  submissions : List StakeData
  builtTree : Bool
deriving DecidableEq

/-- Embedding of `mirrorCronJob.mirrorTxs`: build the tree, then submit every
transaction in order, aborting on the first error. -/
def mirrorTxs (env : MirrorEnv) (epochId : Int)
    (txs : List PChainVotingData) : MirrorTxsOut :=
  match buildTree env.parseTxID txs with
  | Except.error e =>
    { result := Except.error e, proofReqs := [], submissions := []
      builtTree := false }
  | Except.ok tree =>
    match mirrorLoop env epochId tree txs with
    | (r, ps, ss) =>
      { result := r, proofReqs := ps, submissions := ss, builtTree := true }

/-- Modelled from the spec: `database.GetUnmirroredPChainTxs` (the database
package is not part of the sources) returns all staking-transaction records
with timestamp in `[startTime, endTime)` whose mirrored flag is unset, in
storage order. -/
def getUnmirroredPChainTxs (db : List PChainVotingData)
    (startTime endTime : Int) : List PChainVotingData :=
  db.filter (fun r =>
    decide (startTime ≤ r.timestamp) && decide (r.timestamp < endTime) &&
      !r.mirrored)

/-- Modelled from the spec: `database.MarkTxsAsMirrored` (the database package
is not part of the sources) marks the given records as mirrored in one batched
update. -/
def markTxsAsMirrored (db : List PChainVotingData)
    (txs : List PChainVotingData) : List PChainVotingData :=
  db.map (fun r => if r ∈ txs then { r with mirrored := true } else r)

/-- Full observable outcome of one `mirrorCronJob.Call` run: the returned
result, the trace of proof requests and submission calls, whether a Merkle
tree was built, the argument of the `MarkTxsAsMirrored` invocation (`none`
when it is never invoked), and the database after the run. -/
structure RunResult where
  result : Except String Unit
  proofReqs : List Nat
  submissions : List StakeData
  builtTree : Bool
  marked : Option (List PChainVotingData)
  dbAfter : List PChainVotingData
deriving DecidableEq

/-- Embedding of `mirrorCronJob.Call`: compute the previous epoch (`none`
models the Go panic on a zero epoch period), reject a negative epoch, select
the unmirrored transactions of the epoch window, short-circuit on an empty
selection, mirror the batch, and only then mark it as mirrored. -/
def Call (env : MirrorEnv) (cfg : MirrorJobCfg) (db : List PChainVotingData)
    (now : Int) : Option RunResult :=
  match getPreviousEpochChecked cfg.epochTimeSeconds cfg.epochPeriodSeconds
      now with
  | none => none
  | some epoch =>
    if epoch < 0 then
      some { result := Except.error ("invalid epoch"), proofReqs := []
             submissions := [], builtTree := false, marked := none
             dbAfter := db }
    else
      let w := epochWindow cfg.epochTimeSeconds cfg.epochPeriodSeconds epoch
      let txs := getUnmirroredPChainTxs db w.1 w.2
      if txs.isEmpty then
        some { result := Except.ok (), proofReqs := [], submissions := []
               builtTree := false, marked := none, dbAfter := db }
      else
        let out := mirrorTxs env epoch txs
        match out.result with
        | Except.error e =>
          some { result := Except.error e, proofReqs := out.proofReqs
                 submissions := out.submissions, builtTree := out.builtTree
                 marked := none, dbAfter := db }
        | Except.ok _ =>
          some { result := Except.ok (), proofReqs := out.proofReqs
                 submissions := out.submissions, builtTree := out.builtTree
                 marked := some txs, dbAfter := markTxsAsMirrored db txs }

/-!
Embedding of the X-chain input-resolution pipeline
(`xChainInputUpdater.UpdateInputs` and its tiers).  The shared base updater
(`shared.BaseInputUpdater`, `shared.UpdateInputsWithOutputs`,
`shared.TxOutputsFromBaseTx`) and the database fetch are not part of the
sources; they are modelled from the spec as indicated on each definition.
The unresolved set is represented by the list of distinct output identifiers
that still wait for their output (the keys of Go's `notUpdated` map); chain
iteration follows that list's order, a deterministic stand-in for Go's
unspecified map order.
-/

/-- Resolved output record attached to inputs; `idKey` is the identifier of
the transaction that produced it, the key the pipeline matches on. -/
structure TxOutput where
  idKey : String
  amount : Nat
  address : String
deriving DecidableEq

/-- Raw output carried inside a parsed chain transaction, before it is keyed
by the transaction identifier. -/
structure RawOutput where
  amount : Nat
  address : String
deriving DecidableEq

/-- Unsigned transaction shapes distinguished by `updateFromChain`: a plain
base transaction, an import transaction wrapping a base transaction, and the
open catch-all for every other shape (carrying its Go type name). -/
inductive UnsignedTx where
  | baseTx : List RawOutput → UnsignedTx
  | importTx : List RawOutput → UnsignedTx
  | otherTx : String → UnsignedTx
deriving DecidableEq

/-- Transaction container returned by the remote indexing service:
its reported id (`container.ID.String()`) and its raw bytes (abstracted). -/
structure Container where
  idStr : String
  bytes : Nat
deriving DecidableEq

/-- Tests whether some output in the list resolves the given identifier. -/
def outsResolve (outs : List TxOutput) (id : String) : Bool :=
  outs.any (fun o => o.idKey == id)

/-- Modelled from the spec: `shared.BaseInputUpdater.UpdateInputsFromCache`
(shared package not in the sources) attaches cached outputs to the inputs
referencing them and returns the identifiers that remain unresolved, each
listed once. -/
def updateInputsFromCache (cache : String → Option TxOutput)
    (ids : List String) : List String :=
  ids.eraseDups.filter (fun id => (cache id).isNone)

/-- Modelled from the spec: `shared.UpdateInputsWithOutputs` (shared package
not in the sources) attaches the fetched outputs to the waiting inputs and
shrinks the unresolved set by the identifiers now resolved. -/
def updateInputsWithOutputs (notUpdated : List String)
    (outs : List TxOutput) : List String :=
  notUpdated.filter (fun id => !outsResolve outs id)

/-- Embedding of `xChainInputUpdater.updateFromDB`: batch-fetch the remaining
identifiers from the persisted store and shrink the unresolved set. -/
def updateFromDB (store : List String → Except String (List TxOutput))
    (notUpdated : List String) : Except String (List String) :=
  match store notUpdated with
  | Except.error e => Except.error e
  | Except.ok outs => Except.ok (updateInputsWithOutputs notUpdated outs)

/-- Modelled from the spec: `shared.TxOutputsFromBaseTx` (shared package not
in the sources) keys the outputs of a base transaction by the identifier of
the transaction that produced them. -/
def txOutputsFromBaseTx (txId : String) (outs : List RawOutput) :
    List TxOutput :=
  outs.map (fun o => { idKey := txId, amount := o.amount
                       address := o.address })

/-- Fetch-and-parse loop of `xChainInputUpdater.updateFromChain`: for each
remaining identifier, fetch its container (a fetch error aborts; a nil
container is skipped), parse it (a parse error aborts), extract the outputs
of a base or import transaction, and abort on any other shape. -/
def fetchChainOuts (fetch : String → Except String (Option Container))
    (parse : Nat → Except String UnsignedTx) :
    List String → Except String (List TxOutput)
  | [] => Except.ok []
  | id :: rest =>
    match fetch id with
    | Except.error e => Except.error e
    | Except.ok none => fetchChainOuts fetch parse rest
    | Except.ok (some c) =>
      match parse c.bytes with
      | Except.error e => Except.error e
      | Except.ok (UnsignedTx.baseTx outs) =>
        (fetchChainOuts fetch parse rest).map
          (fun os => txOutputsFromBaseTx id outs ++ os)
      | Except.ok (UnsignedTx.importTx outs) =>
        (fetchChainOuts fetch parse rest).map
          (fun os => txOutputsFromBaseTx id outs ++ os)
      | Except.ok (UnsignedTx.otherTx tyName) =>
        Except.error ("transaction with id " ++ c.idStr ++
          " has unsupported type " ++ tyName)

/-- Embedding of `xChainInputUpdater.updateFromChain`: run the fetch loop over
the unresolved identifiers, then attach all fetched outputs and shrink the
unresolved set. -/
def updateFromChain (fetch : String → Except String (Option Container))
    (parse : Nat → Except String UnsignedTx) (notUpdated : List String) :
    Except String (List String) :=
  match fetchChainOuts fetch parse notUpdated with
  | Except.error e => Except.error e
  | Except.ok outs => Except.ok (updateInputsWithOutputs notUpdated outs)

/-- Error message of `UpdateInputs` when identifiers remain unresolved. -/
def unresolvedMsg (ids : List String) : String :=
  "unable to fetch transactions with ids " ++ toString ids

/-- Embedding of `xChainInputUpdater.UpdateInputs`: cache tier, then store
tier, then chain tier, then fail naming the identifiers still unresolved, if
any remain. -/
def UpdateInputs (cache : String → Option TxOutput)
    (store : List String → Except String (List TxOutput))
    (fetch : String → Except String (Option Container))
    (parse : Nat → Except String UnsignedTx)
    (ids : List String) : Except String Unit :=
  let notUpdated := updateInputsFromCache cache ids
  match updateFromDB store notUpdated with
  | Except.error e => Except.error e
  | Except.ok nu2 =>
    match updateFromChain fetch parse nu2 with
    | Except.error e => Except.error e
    | Except.ok nu3 =>
      if nu3.length > 0 then Except.error (unresolvedMsg nu3)
      else Except.ok ()

/-- Sample staking transaction used in the epoch-scenario theorems: a
validator-add record at the given timestamp with the given mirrored flag. -/
def sampleTx (ts : Int) (m : Bool) : PChainVotingData :=
  { txID := some ("tx"), txType := PChainTxType.pChainAddValidatorTx
    nodeID := "node", startTime := some ts, endTime := some (ts + 100)
    weight := 1, blockHeight := 1, address := "addr", feePercentage := 0
    timestamp := ts, mirrored := m }

/-- Sample oracle environment in which every external parse succeeds and
every submission succeeds; used to instantiate witnesses. -/
def happyEnv : MirrorEnv :=
  { parseTxID := fun _ => Except.ok 7
    parseNodeID := fun _ => Except.ok 9
    hexToAddress := fun _ => 3
    getProof := fun _ _ => Except.ok []
    verifyStake := fun _ _ => Except.ok () }

/-- The observable outcome of a run that short-circuits on an empty
selection: success with no tree, no proof requests, no submissions, no
marking, and an unchanged database. -/
def noopRun (db : List PChainVotingData) : RunResult :=
  { result := Except.ok (), proofReqs := [], submissions := []
    builtTree := false, marked := none, dbAfter := db }

/-- Oracle environment whose on-chain submission always reverts; every other
collaborator succeeds. -/
def failEnv : MirrorEnv :=
  { happyEnv with verifyStake := fun _ _ => Except.error ("revert") }

/-- Cache oracle with no entries. -/
def emptyCache : String → Option TxOutput := fun _ => none

/-- Store oracle that finds no outputs. -/
def emptyStore : List String → Except String (List TxOutput) :=
  fun _ => Except.ok []

/-- Chain fetch oracle for which every transaction is not found. -/
def nilFetch : String → Except String (Option Container) :=
  fun _ => Except.ok none

/-- Parse oracle returning an empty base transaction. -/
def baseParse : Nat → Except String UnsignedTx :=
  fun _ => Except.ok (UnsignedTx.baseTx [])

/-- Chain fetch oracle that finds the same container for every identifier. -/
def unsupFetch : String → Except String (Option Container) :=
  fun _ => Except.ok (some { idStr := "C1", bytes := 0 })

/-- Parse oracle returning an unsupported transaction shape. -/
def unsupParse : Nat → Except String UnsignedTx :=
  fun _ => Except.ok (UnsignedTx.otherTx "*txs.CreateAssetTx")

/-!
Theorems settling the claims, one theorem per claim, with witnesses and
counterexamples as required.
-/

/-- C9: every mirror cronjob value constructed by `NewMirrorCronjob` reports
itself disabled: `Enabled` returns `false` unconditionally. -/
theorem mirror_enabled_false (epochPeriodNanos epochTimeUnix : Int) :
    Enabled (newMirrorCronjob epochPeriodNanos epochTimeUnix) = false :=
  rfl

/-- C10: a configured mirror epoch period of at least one second (10^9
nanoseconds) makes `epochPeriodSeconds` positive and the division of
`getPreviousEpoch` well-defined, while a nonnegative period shorter than one
second makes `epochPeriodSeconds` zero, so the first `Call` divides by zero
(the Go panic, modelled as `none`). -/
theorem epoch_period_zero_division (epochPeriodNanos epochTimeUnix : Int) :
    (1000000000 ≤ epochPeriodNanos →
      0 < (newMirrorCronjob epochPeriodNanos epochTimeUnix).epochPeriodSeconds
      ∧ ∀ now,
        getPreviousEpochChecked
            (newMirrorCronjob epochPeriodNanos epochTimeUnix).epochTimeSeconds
            (newMirrorCronjob epochPeriodNanos
              epochTimeUnix).epochPeriodSeconds now =
          some (getPreviousEpoch
            (newMirrorCronjob epochPeriodNanos epochTimeUnix).epochTimeSeconds
            (newMirrorCronjob epochPeriodNanos
              epochTimeUnix).epochPeriodSeconds now))
    ∧ (0 ≤ epochPeriodNanos → epochPeriodNanos < 1000000000 →
      (newMirrorCronjob epochPeriodNanos epochTimeUnix).epochPeriodSeconds = 0
      ∧ ∀ env db now,
        Call env (newMirrorCronjob epochPeriodNanos epochTimeUnix) db now =
          none) := by
  constructor
  · intro h
    have h0 : (0:Int) ≤ epochPeriodNanos := le_trans (by decide) h
    have htd : Int.tdiv epochPeriodNanos 1000000000 =
        epochPeriodNanos / 1000000000 :=
      Int.tdiv_eq_ediv h0 (by decide)
    have hpos : 0 < Int.tdiv epochPeriodNanos 1000000000 := by
      rw [htd]
      have : (1000000000:Int) / 1000000000 ≤ epochPeriodNanos / 1000000000 :=
        Int.ediv_le_ediv (by decide) h
      omega
    refine ⟨hpos, fun now => ?_⟩
    simp only [getPreviousEpochChecked, newMirrorCronjob]
    rw [if_neg]
    omega
  · intro h0 h1
    have hz : Int.tdiv epochPeriodNanos 1000000000 = 0 := by
      rw [Int.tdiv_eq_ediv h0 (by decide)]
      exact Int.ediv_eq_zero_of_lt h0 h1
    refine ⟨hz, fun env db now => ?_⟩
    simp [Call, getPreviousEpochChecked, newMirrorCronjob, hz]

/-- C10 witness: a two-second period yields a positive period and a
well-defined epoch; a half-second period yields a zero period and a `Call`
that hits the division by zero. -/
theorem epoch_period_zero_division_witness :
    (0 < (newMirrorCronjob 2000000000 0).epochPeriodSeconds
      ∧ ∀ now, getPreviousEpochChecked (newMirrorCronjob 2000000000
          0).epochTimeSeconds
          (newMirrorCronjob 2000000000 0).epochPeriodSeconds now =
        some (getPreviousEpoch (newMirrorCronjob 2000000000 0).epochTimeSeconds
          (newMirrorCronjob 2000000000 0).epochPeriodSeconds now))
    ∧ ((newMirrorCronjob 500000000 0).epochPeriodSeconds = 0
      ∧ ∀ env db now, Call env (newMirrorCronjob 500000000 0) db now = none) :=
  ⟨(epoch_period_zero_division 2000000000 0).1 (by decide),
   (epoch_period_zero_division 500000000 0).2 (by decide) (by decide)⟩

/-- C6 counterexample: with anchor 100, period 3600 and now 0 the code's
truncated division gives previous epoch -1, while the claimed floor formula
gives -2, so the claim fails for anchors after `now`. -/
theorem previous_epoch_not_floor_cex :
    getPreviousEpoch 100 3600 0 ≠ Int.fdiv (0 - 100) 3600 - 1 := by
  decide

/-- C6 (amended): the previous-epoch index is the truncated-toward-zero
quotient `(now - anchor) / period` minus 1, which agrees with the claimed
floor formula whenever `now` is at or after the anchor; the window of epoch
`i` is `[anchor + i * period, anchor + (i + 1) * period)`; and in the concrete
scenario (period 3600, anchor 0, now 7300) the previous epoch is 1 with
window `[3600, 7200)`, an unmirrored transaction at 4000 is selected and one
at 8000 is not. -/
theorem previous_epoch_floor_after_anchor :
    (∀ a p now : Int, 0 < p → a ≤ now →
      getPreviousEpoch a p now = Int.fdiv (now - a) p - 1)
    ∧ (∀ a p i : Int, epochWindow a p i = (a + i * p, a + (i + 1) * p))
    ∧ getPreviousEpoch 0 3600 7300 = 1
    ∧ epochWindow 0 3600 1 = (3600, 7200)
    ∧ getUnmirroredPChainTxs [sampleTx 4000 false, sampleTx 8000 false]
        3600 7200 = [sampleTx 4000 false] := by
  refine ⟨fun a p now hp hle => ?_, fun a p i => ?_, by decide, by decide,
    by decide⟩
  · have hx : (0:Int) ≤ now - a := by omega
    have h1 : Int.tdiv (now - a) p = (now - a) / p :=
      Int.tdiv_eq_ediv hx (le_of_lt hp)
    have h2 : Int.fdiv (now - a) p = (now - a) / p :=
      Int.fdiv_eq_ediv _ (le_of_lt hp)
    simp [getPreviousEpoch, h1, h2]
  · simp only [epochWindow, Prod.mk.injEq]
    exact ⟨trivial, by ring⟩

/-- C6 witness: the floor form of the previous epoch, instantiated at
anchor 0, period 3600, now 7300. -/
theorem previous_epoch_floor_after_anchor_witness :
    getPreviousEpoch 0 3600 7300 = Int.fdiv (7300 - 0) 3600 - 1 :=
  previous_epoch_floor_after_anchor.1 0 3600 7300 (by decide) (by decide)

/-- C7 counterexample: with anchor 100, period 3600 and now 0 the window of
the previous epoch is `[-3500, 100)`, which contains now = 0 and does not end
at or before it, so the claim fails for anchors after `now`. -/
theorem previous_window_contains_now_cex :
    (epochWindow 100 3600 (getPreviousEpoch 100 3600 0)).1 ≤ 0
    ∧ (0:Int) < (epochWindow 100 3600 (getPreviousEpoch 100 3600 0)).2 := by
  decide

/-- C7 (amended): whenever `now` is at or after the anchor and the period is
positive, the window of `previousEpoch(now)` does not contain `now` and ends
at or before it; and for every epoch index the window's end equals the start
of the next epoch's window (the windows are contiguous). -/
theorem previous_window_before_now :
    (∀ a p now : Int, 0 < p → a ≤ now →
      ¬((epochWindow a p (getPreviousEpoch a p now)).1 ≤ now
        ∧ now < (epochWindow a p (getPreviousEpoch a p now)).2)
      ∧ (epochWindow a p (getPreviousEpoch a p now)).2 ≤ now)
    ∧ (∀ a p e : Int, (epochWindow a p e).2 = (epochWindow a p (e + 1)).1) := by
  constructor
  · intro a p now hp hle
    have hx : (0:Int) ≤ now - a := by omega
    have h1 : Int.tdiv (now - a) p = (now - a) / p :=
      Int.tdiv_eq_ediv hx (le_of_lt hp)
    have hb : (now - a) / p * p ≤ now - a :=
      Int.ediv_mul_le _ (ne_of_gt hp)
    have hend : (epochWindow a p (getPreviousEpoch a p now)).2 ≤ now := by
      simp only [epochWindow, getPreviousEpoch, h1]
      have hq : ((now - a) / p - 1) * p + p = (now - a) / p * p := by ring
      omega
    exact ⟨fun hc => absurd hend (by omega), hend⟩
  · intro a p e
    simp only [epochWindow]
    ring

/-- C7 witness: the amended window property instantiated at anchor 0,
period 3600, now 7300. -/
theorem previous_window_before_now_witness :
    ¬((epochWindow 0 3600 (getPreviousEpoch 0 3600 7300)).1 ≤ 7300
      ∧ (7300:Int) < (epochWindow 0 3600 (getPreviousEpoch 0 3600 7300)).2)
    ∧ (epochWindow 0 3600 (getPreviousEpoch 0 3600 7300)).2 ≤ 7300 :=
  previous_window_before_now.1 0 3600 7300 (by decide) (by decide)

/-- C5: stake-claim construction fails exactly when the transaction-type tag
is neither validator-add nor delegator-add, or the node id fails to parse, or
the start or end time is null; on success the claim's type tag is 0 for
validator-add and 1 for delegator-add. -/
theorem toStakeData_error_iff (env : MirrorEnv) (tx : PChainVotingData)
    (epochId : Int) (txHash : Nat) :
    ((toStakeData env tx epochId txHash).isOk = false ↔
      ((tx.txType ≠ PChainTxType.pChainAddValidatorTx
          ∧ tx.txType ≠ PChainTxType.pChainAddDelegatorTx)
        ∨ (env.parseNodeID tx.nodeID).isOk = false
        ∨ tx.startTime = none ∨ tx.endTime = none))
    ∧ (∀ sd, toStakeData env tx epochId txHash = Except.ok sd →
      (tx.txType = PChainTxType.pChainAddValidatorTx →
        sd.transactionType = 0)
      ∧ (tx.txType = PChainTxType.pChainAddDelegatorTx →
        sd.transactionType = 1)) := by
  obtain ⟨txID, txType, nodeID, startTime, endTime, w, bh, addr, fee, ts, m⟩ :=
    tx
  constructor
  · cases txType <;> cases hn : env.parseNodeID nodeID <;>
      cases startTime <;> cases endTime <;>
      simp [toStakeData, getTxType, hn, Except.isOk, Except.toBool]
  · intro sd h
    cases txType <;> cases hn : env.parseNodeID nodeID <;>
      cases startTime <;> cases endTime <;>
      simp [toStakeData, getTxType, hn] at h <;>
      simp [← h]

/-- C5 witness: a validator-add record with all fields present yields a stake
claim with type tag 0, and its error characterisation holds. -/
theorem toStakeData_error_iff_witness :
    ((toStakeData happyEnv (sampleTx 4000 false) 1 7).isOk = false ↔
      (((sampleTx 4000 false).txType ≠ PChainTxType.pChainAddValidatorTx
          ∧ (sampleTx 4000 false).txType ≠ PChainTxType.pChainAddDelegatorTx)
        ∨ (happyEnv.parseNodeID (sampleTx 4000 false).nodeID).isOk = false
        ∨ (sampleTx 4000 false).startTime = none
        ∨ (sampleTx 4000 false).endTime = none))
    ∧ ∃ sd, toStakeData happyEnv (sampleTx 4000 false) 1 7 = Except.ok sd
        ∧ sd.transactionType = 0 :=
  ⟨(toStakeData_error_iff happyEnv (sampleTx 4000 false) 1 7).1,
   ⟨_, rfl,
    ((toStakeData_error_iff happyEnv (sampleTx 4000 false) 1 7).2 _ rfl).1
      rfl⟩⟩

/-- Helper: a transaction with a nil or unparseable identifier anywhere in the
batch makes `buildTree` fail. -/
theorem buildTree_error_of_bad (parseTxID : String → Except String Nat) :
    ∀ txs : List PChainVotingData,
    (∃ tx ∈ txs, tx.txID = none
      ∨ ∃ s, tx.txID = some s ∧ (parseTxID s).isOk = false) →
    ∃ e, buildTree parseTxID txs = Except.error e := by
  intro txs h
  induction txs with
  | nil => simp at h
  | cons t rest ih =>
    obtain ⟨tx, hmem, hbad⟩ := h
    rcases List.mem_cons.mp hmem with heq | hrest
    · subst heq
      rcases hbad with hnil | ⟨s, hs, hbadparse⟩
      · exact ⟨"tx.TxID is nil", by simp [buildTree, hnil]⟩
      · cases hp : parseTxID s with
        | error e =>
          exact ⟨"ids.FromString: " ++ e, by simp [buildTree, hs, hp]⟩
        | ok v => simp [hp, Except.isOk, Except.toBool] at hbadparse
    · obtain ⟨e, he⟩ := ih ⟨tx, hrest, hbad⟩
      cases ht : t.txID with
      | none => exact ⟨"tx.TxID is nil", by simp [buildTree, ht]⟩
      | some s =>
        cases hp : parseTxID s with
        | error e2 =>
          exact ⟨"ids.FromString: " ++ e2, by simp [buildTree, ht, hp]⟩
        | ok v => exact ⟨e, by simp [buildTree, ht, hp, he, Except.map]⟩

/-- C4: if any transaction of the batch has a nil identifier or an identifier
that fails to parse, `buildTree` returns an error and the whole `mirrorTxs`
stage aborts with no inclusion proof requested, no submission call made, and
no tree built. -/
theorem bad_txid_aborts_batch (env : MirrorEnv) (epochId : Int)
    (txs : List PChainVotingData)
    (h : ∃ tx ∈ txs, tx.txID = none
      ∨ ∃ s, tx.txID = some s ∧ (env.parseTxID s).isOk = false) :
    ∃ e, buildTree env.parseTxID txs = Except.error e
      ∧ mirrorTxs env epochId txs =
        { result := Except.error e, proofReqs := [], submissions := []
          builtTree := false } := by
  obtain ⟨e, he⟩ := buildTree_error_of_bad env.parseTxID txs h
  exact ⟨e, he, by simp [mirrorTxs, he]⟩

/-- C4 witness: a single transaction with a nil identifier aborts the batch
before any proof or submission. -/
theorem bad_txid_aborts_batch_witness :
    ∃ e, buildTree happyEnv.parseTxID
        [{ sampleTx 4000 false with txID := none }] = Except.error e
      ∧ mirrorTxs happyEnv 1 [{ sampleTx 4000 false with txID := none }] =
        { result := Except.error e, proofReqs := [], submissions := []
          builtTree := false } :=
  bad_txid_aborts_batch happyEnv 1 [{ sampleTx 4000 false with txID := none }]
    ⟨{ sampleTx 4000 false with txID := none }, by simp, Or.inl rfl⟩

/-- C8: when the unmirrored-transaction selection of the previous epoch's
window is empty, `Call` returns success without building a tree, submitting a
call, or invoking the completion marker; in particular, when every record of
the window is already marked mirrored, re-invoking the run is a no-op
success. -/
theorem empty_selection_noop (env : MirrorEnv) (cfg : MirrorJobCfg)
    (db : List PChainVotingData) (now epoch : Int)
    (h0 : getPreviousEpochChecked cfg.epochTimeSeconds cfg.epochPeriodSeconds
      now = some epoch)
    (h1 : ¬epoch < 0) :
    (getUnmirroredPChainTxs db
        (epochWindow cfg.epochTimeSeconds cfg.epochPeriodSeconds epoch).1
        (epochWindow cfg.epochTimeSeconds cfg.epochPeriodSeconds epoch).2
        = [] →
      Call env cfg db now = some (noopRun db))
    ∧ ((∀ r ∈ db,
        (epochWindow cfg.epochTimeSeconds cfg.epochPeriodSeconds epoch).1
          ≤ r.timestamp →
        r.timestamp <
          (epochWindow cfg.epochTimeSeconds cfg.epochPeriodSeconds epoch).2 →
        r.mirrored = true) →
      Call env cfg db now = some (noopRun db)) := by
  have main : getUnmirroredPChainTxs db
      (epochWindow cfg.epochTimeSeconds cfg.epochPeriodSeconds epoch).1
      (epochWindow cfg.epochTimeSeconds cfg.epochPeriodSeconds epoch).2
      = [] →
      Call env cfg db now = some (noopRun db) := by
    intro hsel
    simp [Call, h0, h1, hsel, noopRun]
  refine ⟨main, fun hall => main ?_⟩
  simp only [getUnmirroredPChainTxs, List.filter_eq_nil_iff]
  intro r hr hpred
  simp only [Bool.and_eq_true, decide_eq_true_eq, Bool.not_eq_true'] at hpred
  obtain ⟨⟨hge, hlt⟩, hm⟩ := hpred
  rw [hall r hr hge hlt] at hm
  simp at hm

/-- C8 witness: with anchor 0, period 3600 and now 7300, a database whose
only window record is already mirrored yields an empty selection and a no-op
successful run. -/
theorem empty_selection_noop_witness :
    Call happyEnv { epochTimeSeconds := 0, epochPeriodSeconds := 3600 }
        [sampleTx 4000 true] 7300 = some (noopRun [sampleTx 4000 true]) :=
  (empty_selection_noop happyEnv
      { epochTimeSeconds := 0, epochPeriodSeconds := 3600 }
      [sampleTx 4000 true] 7300 1 (by decide) (by decide)).2 (by decide)

/-- Helper: in the sequential submission loop, if every transaction before
some point succeeds and the transaction at that point fails, the whole loop
fails. -/
theorem mirrorLoop_first_error (env : MirrorEnv) (epochId : Int)
    (tree : List Nat) :
    ∀ (pre : List PChainVotingData) (tx : PChainVotingData)
      (post : List PChainVotingData),
    (∀ t ∈ pre, (mirrorTx env epochId tree t).1 = Except.ok ()) →
    (mirrorTx env epochId tree tx).1.isOk = false →
    (mirrorLoop env epochId tree (pre ++ tx :: post)).1.isOk = false := by
  intro pre
  induction pre with
  | nil =>
    intro tx post _ htx
    cases hm : mirrorTx env epochId tree tx with
    | mk r trace =>
      cases r with
      | error e => simp [mirrorLoop, hm, Except.isOk, Except.toBool]
      | ok u =>
        rw [hm] at htx
        simp [Except.isOk, Except.toBool] at htx
  | cons t pre2 ih =>
    intro tx post hpre htx
    have ht : (mirrorTx env epochId tree t).1 = Except.ok () :=
      hpre t (by simp)
    cases hm : mirrorTx env epochId tree t with
    | mk r trace =>
      rw [hm] at ht
      simp only at ht
      subst ht
      have hrest := ih tx post (fun u hu => hpre u (by simp [hu])) htx
      cases hloop : mirrorLoop env epochId tree (pre2 ++ tx :: post) with
      | mk r2 trace2 =>
        rw [hloop] at hrest
        cases trace with
        | mk ps ss =>
          simp [mirrorLoop, hm, hloop]
          exact hrest

/-- C1: for a mirroring run whose selection yields the batch
`pre ++ tx :: post` (so `tx` is the k-th of N transactions, k = length of
`pre`), if every transaction of `pre` is mirrored successfully and the
processing of `tx` — in particular its submission call — returns an error,
then the run aborts with an error, `database.MarkTxsAsMirrored` is never
invoked, and the database is unchanged: none of the N transactions are
marked mirrored. -/
theorem submission_failure_marks_nothing (env : MirrorEnv)
    (cfg : MirrorJobCfg) (db : List PChainVotingData) (now epoch : Int)
    (pre : List PChainVotingData) (tx : PChainVotingData)
    (post : List PChainVotingData)
    (h0 : getPreviousEpochChecked cfg.epochTimeSeconds cfg.epochPeriodSeconds
      now = some epoch)
    (h1 : ¬epoch < 0)
    (h2 : getUnmirroredPChainTxs db
        (epochWindow cfg.epochTimeSeconds cfg.epochPeriodSeconds epoch).1
        (epochWindow cfg.epochTimeSeconds cfg.epochPeriodSeconds epoch).2
        = pre ++ tx :: post)
    (h3 : ∀ tree,
      buildTree env.parseTxID (pre ++ tx :: post) = Except.ok tree →
      (∀ t ∈ pre, (mirrorTx env epoch tree t).1 = Except.ok ())
      ∧ (mirrorTx env epoch tree tx).1.isOk = false) :
    ∃ r, Call env cfg db now = some r ∧ r.result.isOk = false
      ∧ r.marked = none ∧ r.dbAfter = db := by
  have hne : (pre ++ tx :: post).isEmpty = false := by
    cases pre <;> simp [List.isEmpty]
  have hout : (mirrorTxs env epoch (pre ++ tx :: post)).result.isOk
      = false := by
    cases hbt : buildTree env.parseTxID (pre ++ tx :: post) with
    | error e => simp [mirrorTxs, hbt, Except.isOk, Except.toBool]
    | ok tree =>
      obtain ⟨hpre, htx⟩ := h3 tree hbt
      have hl := mirrorLoop_first_error env epoch tree pre tx post hpre htx
      cases hloop : mirrorLoop env epoch tree (pre ++ tx :: post) with
      | mk r trace =>
        rw [hloop] at hl
        cases trace with
        | mk ps ss =>
          simpa [mirrorTxs, hbt, hloop] using hl
  cases hres : (mirrorTxs env epoch (pre ++ tx :: post)).result with
  | ok u =>
    rw [hres] at hout
    simp [Except.isOk, Except.toBool] at hout
  | error e =>
    refine ⟨{ result := Except.error e
              proofReqs := (mirrorTxs env epoch (pre ++ tx :: post)).proofReqs
              submissions :=
                (mirrorTxs env epoch (pre ++ tx :: post)).submissions
              builtTree := (mirrorTxs env epoch (pre ++ tx :: post)).builtTree
              marked := none, dbAfter := db }, ?_,
      by simp [Except.isOk, Except.toBool], rfl, rfl⟩
    simp [Call, h0, h1, h2, hne, hres]

/-- C1 witness: one selected transaction whose submission reverts leaves the
run in error, the marker uninvoked, and the database unchanged. -/
theorem submission_failure_marks_nothing_witness :
    ∃ r, Call failEnv { epochTimeSeconds := 0, epochPeriodSeconds := 3600 }
        [sampleTx 4000 false] 7300 = some r ∧ r.result.isOk = false
      ∧ r.marked = none ∧ r.dbAfter = [sampleTx 4000 false] :=
  submission_failure_marks_nothing failEnv
    { epochTimeSeconds := 0, epochPeriodSeconds := 3600 }
    [sampleTx 4000 false] 7300 1 [] (sampleTx 4000 false) []
    (by decide) (by decide) (by decide)
    (by
      intro tree ht
      have hbt : buildTree failEnv.parseTxID ([] ++ [sampleTx 4000 false]) =
          Except.ok [7] := by decide
      rw [hbt] at ht
      injection ht with h
      subst h
      exact ⟨by simp, by decide⟩)

/-- C2: when the store tier and the chain tier complete without a hard error,
the resolution pipeline — cache tier, then store tier, then chain tier —
returns the error enumerating the output identifiers still unresolved exactly
when identifiers remain unresolved after all three tiers, and success when
every referenced output was found. -/
theorem updateInputs_unresolved_iff (cache : String → Option TxOutput)
    (store : List String → Except String (List TxOutput))
    (fetch : String → Except String (Option Container))
    (parse : Nat → Except String UnsignedTx)
    (ids nu2 nu3 : List String)
    (h1 : updateFromDB store (updateInputsFromCache cache ids) =
      Except.ok nu2)
    (h2 : updateFromChain fetch parse nu2 = Except.ok nu3) :
    UpdateInputs cache store fetch parse ids =
      (if nu3 = [] then Except.ok ()
       else Except.error (unresolvedMsg nu3)) := by
  simp only [UpdateInputs, h1, h2]
  cases nu3 <;> simp

/-- C2 witness: one referenced output that no tier can resolve yields the
enumerating error. -/
theorem updateInputs_unresolved_iff_witness :
    UpdateInputs emptyCache emptyStore nilFetch baseParse ["out1"] =
      (if (["out1"] : List String) = [] then Except.ok ()
       else Except.error (unresolvedMsg ["out1"])) :=
  updateInputs_unresolved_iff emptyCache emptyStore nilFetch baseParse
    ["out1"] ["out1"] ["out1"] (by decide) (by decide)

/-- Helper: every output produced by the chain fetch loop is keyed by one of
the requested identifiers, and that identifier's fetch did not return a nil
container. -/
theorem fetchChainOuts_sources (fetch : String → Except String
      (Option Container)) (parse : Nat → Except String UnsignedTx) :
    ∀ (l : List String) (outs : List TxOutput),
    fetchChainOuts fetch parse l = Except.ok outs →
    ∀ o ∈ outs, o.idKey ∈ l ∧ fetch o.idKey ≠ Except.ok none := by
  intro l
  induction l with
  | nil =>
    intro outs h o ho
    simp only [fetchChainOuts] at h
    injection h with h
    subst h
    simp at ho
  | cons id rest ih =>
    intro outs h o ho
    cases hf : fetch id with
    | error e => simp [fetchChainOuts, hf] at h
    | ok copt =>
      cases copt with
      | none =>
        have hrest : fetchChainOuts fetch parse rest = Except.ok outs := by
          simpa [fetchChainOuts, hf] using h
        have := ih outs hrest o ho
        exact ⟨List.mem_cons_of_mem _ this.1, this.2⟩
      | some c =>
        cases hp : parse c.bytes with
        | error e => simp [fetchChainOuts, hf, hp] at h
        | ok utx =>
          cases utx with
          | baseTx outs0 =>
            cases hr : fetchChainOuts fetch parse rest with
            | error e => simp [fetchChainOuts, hf, hp, hr, Except.map] at h
            | ok orest =>
              have houts : txOutputsFromBaseTx id outs0 ++ orest = outs := by
                simpa [fetchChainOuts, hf, hp, hr, Except.map] using h
              subst houts
              rcases List.mem_append.mp ho with hin | hin
              · obtain ⟨ro, _, hro⟩ := List.mem_map.mp hin
                subst hro
                refine ⟨by simp [txOutputsFromBaseTx], ?_⟩
                simp only [txOutputsFromBaseTx]
                intro heq
                rw [hf] at heq
                injection heq with heq
                exact Option.noConfusion heq
              · have := ih orest hr o hin
                exact ⟨List.mem_cons_of_mem _ this.1, this.2⟩
          | importTx outs0 =>
            cases hr : fetchChainOuts fetch parse rest with
            | error e => simp [fetchChainOuts, hf, hp, hr, Except.map] at h
            | ok orest =>
              have houts : txOutputsFromBaseTx id outs0 ++ orest = outs := by
                simpa [fetchChainOuts, hf, hp, hr, Except.map] using h
              subst houts
              rcases List.mem_append.mp ho with hin | hin
              · obtain ⟨ro, _, hro⟩ := List.mem_map.mp hin
                subst hro
                refine ⟨by simp [txOutputsFromBaseTx], ?_⟩
                simp only [txOutputsFromBaseTx]
                intro heq
                rw [hf] at heq
                injection heq with heq
                exact Option.noConfusion heq
              · have := ih orest hr o hin
                exact ⟨List.mem_cons_of_mem _ this.1, this.2⟩
          | otherTx ty => simp [fetchChainOuts, hf, hp] at h

/-- Helper: an identifier whose container fetch returns nil is skipped by the
chain fetch loop: removing it from the request list changes nothing. -/
theorem fetchChainOuts_skip (fetch : String → Except String (Option Container))
    (parse : Nat → Except String UnsignedTx) (id : String)
    (hid : fetch id = Except.ok none) :
    ∀ (pre post : List String),
    fetchChainOuts fetch parse (pre ++ id :: post) =
      fetchChainOuts fetch parse (pre ++ post) := by
  intro pre
  induction pre with
  | nil => intro post; simp [fetchChainOuts, hid]
  | cons t pre2 ih =>
    intro post
    cases hf : fetch t with
    | error e => simp [fetchChainOuts, hf]
    | ok copt =>
      cases copt with
      | none => simpa [fetchChainOuts, hf] using ih post
      | some c =>
        cases hp : parse c.bytes with
        | error e => simp [fetchChainOuts, hf, hp]
        | ok utx => cases utx <;> simp [fetchChainOuts, hf, hp, ih post]

/-- Helper: when the fetch loop succeeds on a prefix, running it on the whole
list prepends the prefix outputs to the result on the rest. -/
theorem fetchChainOuts_append_ok
    (fetch : String → Except String (Option Container))
    (parse : Nat → Except String UnsignedTx) :
    ∀ (l1 : List String) (o1 : List TxOutput),
    fetchChainOuts fetch parse l1 = Except.ok o1 →
    ∀ l2, fetchChainOuts fetch parse (l1 ++ l2) =
      (fetchChainOuts fetch parse l2).map (fun o2 => o1 ++ o2) := by
  intro l1
  induction l1 with
  | nil =>
    intro o1 h l2
    simp only [fetchChainOuts] at h
    injection h with h
    subst h
    cases hr : fetchChainOuts fetch parse l2 <;> simp [Except.map, hr]
  | cons t rest ih =>
    intro o1 h l2
    cases hf : fetch t with
    | error e => simp [fetchChainOuts, hf] at h
    | ok copt =>
      cases copt with
      | none =>
        have hrest : fetchChainOuts fetch parse rest = Except.ok o1 := by
          simpa [fetchChainOuts, hf] using h
        simpa [fetchChainOuts, hf] using ih o1 hrest l2
      | some c =>
        cases hp : parse c.bytes with
        | error e => simp [fetchChainOuts, hf, hp] at h
        | ok utx =>
          cases utx with
          | baseTx outs0 =>
            cases hr : fetchChainOuts fetch parse rest with
            | error e => simp [fetchChainOuts, hf, hp, hr, Except.map] at h
            | ok orest =>
              have ho1 : txOutputsFromBaseTx t outs0 ++ orest = o1 := by
                simpa [fetchChainOuts, hf, hp, hr, Except.map] using h
              subst ho1
              have hstep := ih orest hr l2
              cases hl2 : fetchChainOuts fetch parse l2 <;>
                simp [fetchChainOuts, hf, hp, hstep, hl2, Except.map,
                  List.append_assoc]
          | importTx outs0 =>
            cases hr : fetchChainOuts fetch parse rest with
            | error e => simp [fetchChainOuts, hf, hp, hr, Except.map] at h
            | ok orest =>
              have ho1 : txOutputsFromBaseTx t outs0 ++ orest = o1 := by
                simpa [fetchChainOuts, hf, hp, hr, Except.map] using h
              subst ho1
              have hstep := ih orest hr l2
              cases hl2 : fetchChainOuts fetch parse l2 <;>
                simp [fetchChainOuts, hf, hp, hstep, hl2, Except.map,
                  List.append_assoc]
          | otherTx ty => simp [fetchChainOuts, hf, hp] at h

/-- C3: in the chain tier, an identifier whose container fetch returns nil is
skipped without error and stays unresolved, while a found container that
parses to a transaction shape other than a base or import transaction makes
the whole tier fail with the error naming the unsupported type (given that
the identifiers fetched before it succeeded). -/
theorem chain_nil_skipped_unsupported_fails :
    (∀ (fetch : String → Except String (Option Container))
      (parse : Nat → Except String UnsignedTx)
      (pre post : List String) (id : String),
      fetch id = Except.ok none →
      fetchChainOuts fetch parse (pre ++ id :: post) =
        fetchChainOuts fetch parse (pre ++ post)
      ∧ ∀ nu3, updateFromChain fetch parse (pre ++ id :: post) =
          Except.ok nu3 → id ∈ nu3)
    ∧ (∀ (fetch : String → Except String (Option Container))
      (parse : Nat → Except String UnsignedTx)
      (pre post : List String) (id : String) (c : Container) (ty : String)
      (outs0 : List TxOutput),
      fetchChainOuts fetch parse pre = Except.ok outs0 →
      fetch id = Except.ok (some c) →
      parse c.bytes = Except.ok (UnsignedTx.otherTx ty) →
      updateFromChain fetch parse (pre ++ id :: post) =
        Except.error ("transaction with id " ++ c.idStr ++
          " has unsupported type " ++ ty)) := by
  constructor
  · intro fetch parse pre post id hid
    refine ⟨fetchChainOuts_skip fetch parse id hid pre post, ?_⟩
    intro nu3 h
    cases hfc : fetchChainOuts fetch parse (pre ++ id :: post) with
    | error e => simp [updateFromChain, hfc] at h
    | ok outs =>
      have hnu : updateInputsWithOutputs (pre ++ id :: post) outs = nu3 := by
        simpa [updateFromChain, hfc] using h
      subst hnu
      refine List.mem_filter.mpr ⟨by simp, ?_⟩
      simp only [Bool.not_eq_eq_eq_not, Bool.not_true, outsResolve]
      rw [List.any_eq_false]
      intro o ho
      simp only [beq_iff_eq]
      intro heq
      have hsrc := fetchChainOuts_sources fetch parse _ outs hfc o ho
      rw [heq] at hsrc
      exact hsrc.2 hid
  · intro fetch parse pre post id c ty outs0 hpre hid hparse
    have hmid : fetchChainOuts fetch parse (id :: post) =
        Except.error ("transaction with id " ++ c.idStr ++
          " has unsupported type " ++ ty) := by
      simp [fetchChainOuts, hid, hparse]
    have happ := fetchChainOuts_append_ok fetch parse pre outs0 hpre
      (id :: post)
    rw [hmid] at happ
    simp only [Except.map] at happ
    simp [updateFromChain, happ]

/-- C3 witness: a nil container for "o1" is skipped and leaves "o1"
unresolved; an unsupported shape for "o2" fails the tier with the error
naming the type. -/
theorem chain_nil_skipped_unsupported_fails_witness :
    (fetchChainOuts nilFetch baseParse ([] ++ "o1" :: []) =
        fetchChainOuts nilFetch baseParse ([] ++ [])
      ∧ ∀ nu3, updateFromChain nilFetch baseParse ([] ++ "o1" :: []) =
          Except.ok nu3 → "o1" ∈ nu3)
    ∧ updateFromChain unsupFetch unsupParse ([] ++ "o2" :: []) =
        Except.error ("transaction with id " ++ "C1" ++
          " has unsupported type " ++ "*txs.CreateAssetTx") :=
  ⟨chain_nil_skipped_unsupported_fails.1 nilFetch baseParse [] [] "o1" rfl,
   chain_nil_skipped_unsupported_fails.2 unsupFetch unsupParse [] [] "o2"
     { idStr := "C1", bytes := 0 } "*txs.CreateAssetTx" [] rfl rfl rfl⟩
